import Mathlib

/-!
# Verification of the chatcord session/routing core (`src/server.js`)

Shallow embedding of the in-memory state and socket event handlers of the
chat server.  JavaScript objects used as string-keyed dictionaries are
embedded as association lists (`List (String × β)`) with first-occurrence
lookup; JS `delete` removes the first entry with the key, assignment
replaces it in place (or appends a fresh key at the end), matching JS
object insertion-order semantics.  JS truthiness on strings (`""` is
falsy) and on optional values (`null`/`undefined` falsy) is modelled
explicitly.  Wall-clock timestamps (`Date.now()`) are passed in as an
explicit `now : Int` parameter; `toLocaleTimeString` is an opaque,
locale-dependent rendering of the clock, stood in for by `toString`
(no property below depends on its value).  Transport effects
(`socket.emit`, `io.to(..).emit`, `io.emit`, `socket.join/leave`, and
the fire-and-forget persistence writes) are recorded as an ordered list
of `Out` actions returned by each handler.
-/

namespace Chatcord

/-- JS `a || b` on strings: `""` is falsy. -/
def jsOrS (a b : String) : String := if a = "" then b else a

/-- JS `a || b` where `a` is a possibly-missing string (`null`/`undefined`
or `""` are falsy) and `b` is a possibly-missing fallback. -/
def jsOrOpt (a b : Option String) : Option String :=
  match a with
  | none => b
  | some x => if x = "" then b else some x

/-- JS `x || null` on an optional string: `""` collapses to `null`. -/
def jsOrNull (a : Option String) : Option String :=
  match a with
  | none => none
  | some x => if x = "" then none else some x

/-- Association-list lookup: first entry with the key, like a JS object read. -/
def alGet (k : String) : List (String × β) → Option β
  | [] => none
  | e :: rest => if e.1 = k then some e.2 else alGet k rest

/-- Association-list write: replace the first entry with the key in place,
or append a fresh key at the end — JS object assignment semantics. -/
def alSet (k : String) (v : β) : List (String × β) → List (String × β)
  | [] => [(k, v)]
  | e :: rest => if e.1 = k then (k, v) :: rest else e :: alSet k v rest

/-- Association-list delete: remove the first entry with the key — JS `delete`. -/
def alDel (k : String) : List (String × β) → List (String × β)
  | [] => []
  | e :: rest => if e.1 = k then rest else e :: alDel k rest

/-- The keys of the association list are pairwise distinct (always true of a
real JS object; an invariant of every reachable server state). -/
def NodupKeys (l : List (String × β)) : Prop := (l.map Prod.fst).Nodup

/-- A user profile: `{ name, avatar }` (avatar may be `null`). -/
structure Profile where
  name : String
  avatar : Option String
deriving DecidableEq, Repr

/-- A chat or private message object as built by `chatMessage` /
`privateMessage`.  `fromId`/`toId` are only present on private messages. -/
structure Msg where
  fromId : Option String
  toId : Option String
  user : String
  avatar : Option String
  text : String
  file : Option String
  mtype : String
  time : String
  timestamp : Int
deriving DecidableEq, Repr

/-- The `{ user, text, type }` payload of a system message. -/
structure SysMsg where
  user : String
  text : String
  mtype : String
deriving DecidableEq, Repr

/-- A stored notification (mailbox entry). -/
structure Notif where
  ntype : String
  fromId : String
  fromName : String
  fromAvatar : Option String
  timestamp : Int
deriving DecidableEq, Repr

/-- The live `notification` event payload (no timestamp field). -/
structure NotifLive where
  ntype : String
  fromId : String
  fromName : String
  fromAvatar : Option String
deriving DecidableEq, Repr

/-- One entry of a `friendsUpdate` list. -/
structure FriendView where
  id : String
  name : String
  avatar : Option String
  online : Bool
deriving DecidableEq, Repr

/-- One entry of a voice-presence list. -/
structure VoiceUser where
  id : String
  name : String
  avatar : Option String
deriving DecidableEq, Repr

/-- The complete in-memory state of the server (the module-level `let`
bindings of `server.js`).  `messageHistory` holds only the `'global'`
channel in this variant — every access in the source reads or writes
`messageHistory['global']` — so it is embedded as that single log. -/
structure ServerState where
  users : List (String × Profile)
  voiceState : List (String × String)
  globalHistory : List Msg
  privateMessages : List (String × List (String × List Msg))
  friends : List (String × List String)
  friendRequests : List (String × List String)
  notifications : List (String × List Notif)
  userProfiles : List (String × Profile)
deriving DecidableEq, Repr

/-- The state at process start before any snapshot is loaded:
`messageHistory = { global: [] }` and every other map empty. -/
def initialState : ServerState :=
  { users := [], voiceState := [], globalHistory := [], privateMessages := [],
    friends := [], friendRequests := [], notifications := [], userProfiles := [] }

/-- Outbound wire events produced by the handlers. -/
inductive Event where
  | loadHistory (msgs : List Msg)
  | messageSys (m : SysMsg)
  | message (m : Msg)
  | friendsUpdate (l : List FriendView)
  | notificationsUpdate (l : List Notif)
  | notification (n : NotifLive)
  | friendRequestError (s : String)
  | friendRequestSent (s : String)
  | friendAccepted (id : String) (name : String) (avatar : Option String)
  | friendRequestRejected (id : String)
  | privateMessageError (s : String)
  | privateMessage (m : Msg)
  | privateMessagesHistory (targetId : String) (msgs : List Msg)
  | voiceUpdate (st : List (String × List VoiceUser))
  | userLeftVoice (id : String)
  | voicePeers (ids : List String)
  | voiceSignal (fromId : String) (signal : String)
deriving DecidableEq, Repr

/-- One transport/persistence action of a handler, in program order. -/
inductive Out where
  | toSocket (sid : String) (ev : Event)
  | toRoom (room : String) (ev : Event)
  | toAll (ev : Event)
  | joinRoom (sid : String) (room : String)
  | leaveRoom (sid : String) (room : String)
  | saveHistory
  | savePersistent
deriving DecidableEq, Repr

/-- Opaque stand-in for `new Date().toLocaleTimeString(...)`. -/
def localeTimeString (now : Int) : String := toString now

/-- `getVoiceUsers`-style member list of a voice room:
`Object.keys(voiceState).filter(id => voiceState[id] === roomId)`. -/
def voiceMembers (vs : List (String × String)) (r : String) : List String :=
  (vs.filter (fun e => decide (e.2 = r))).map Prod.fst

/-- One step of `getVoiceStateFull`'s loop body for socket `e.1` in room
`e.2`: create the room key if missing, then push the member's card if the
socket still has a `users` entry. -/
def voiceStateStep (us : List (String × Profile))
    (acc : List (String × List VoiceUser)) (e : String × String) :
    List (String × List VoiceUser) :=
  let acc1 := if (alGet e.2 acc).isSome then acc else acc ++ [(e.2, [])]
  match alGet e.1 us with
  | none => acc1
  | some p => alSet e.2 ((alGet e.2 acc1).getD [] ++ [⟨e.1, p.name, p.avatar⟩]) acc1

/-- `getVoiceStateFull()`: room → ordered member cards, built by walking
`voiceState` in insertion order. -/
def getVoiceStateFull (s : ServerState) : List (String × List VoiceUser) :=
  s.voiceState.foldl (voiceStateStep s.users) []

/-- The null-guarded friend-list entry used by `join` and `getFriendsList`:
`users[id]?.name || userProfiles[id]?.name || 'Unknown'`, avatar likewise,
`online: !!users[id]`. -/
def friendViewSafe (s : ServerState) (id : String) : FriendView :=
  { id := id
    name := jsOrS (jsOrS (((alGet id s.users).map Profile.name).getD "")
                         (((alGet id s.userProfiles).map Profile.name).getD ""))
                  "Unknown"
    avatar := jsOrOpt ((alGet id s.users).bind Profile.avatar)
                      ((alGet id s.userProfiles).bind Profile.avatar)
    online := (alGet id s.users).isSome }

/-- The unguarded friend-list entry used by `acceptFriendRequest`:
`users[id].name` / `users[id].avatar` with no `?.` — throws when the
friend has no live session. -/
def friendViewsStrict (s : ServerState) (ids : List String) :
    Except String (List FriendView) :=
  ids.mapM (fun id =>
    match alGet id s.users with
    | some p => Except.ok ⟨id, p.name, p.avatar, true⟩
    | none => Except.error "TypeError: cannot read name of undefined")

/-- Read of `privateMessages[a] && privateMessages[a][b] || []`. -/
def pmGet (pm : List (String × List (String × List Msg))) (a b : String) :
    List Msg :=
  match alGet a pm with
  | none => []
  | some inner => (alGet b inner).getD []

/-- The `privateMessage` store step: initialize `privateMessages[a]` and
`privateMessages[a][b]` if missing, then push `m`. -/
def pmPush (pm : List (String × List (String × List Msg))) (a b : String)
    (m : Msg) : List (String × List (String × List Msg)) :=
  let inner := (alGet a pm).getD []
  let thread := (alGet b inner).getD []
  alSet a (alSet b (thread ++ [m]) inner) pm

/-- The private `Msg` object built by the `privateMessage` handler. -/
def mkPrivateMsg (fromId toId : String) (sender : Profile) (text : String)
    (file : Option String) (now : Int) : Msg :=
  { fromId := some fromId, toId := some toId, user := sender.name,
    avatar := sender.avatar, text := text, file := jsOrNull file,
    mtype := "private", time := localeTimeString now, timestamp := now }

/-- The public `Msg` object built by the `chatMessage` handler. -/
def mkChatMsg (sender : Profile) (text : String) (file : Option String)
    (now : Int) : Msg :=
  { fromId := none, toId := none, user := sender.name, avatar := sender.avatar,
    text := text, file := jsOrNull file, mtype := "user",
    time := localeTimeString now, timestamp := now }

/-- The `join` handler (`socket.on('join', ...)`): register or restore the
session profile, join the `global` room, replay history, greet the joiner,
send it its friends list and mailbox, and refresh the voice UI of everyone.
Note that nothing is broadcast to the `global` room itself. -/
def joinH (s : ServerState) (sid name : String) (avatar : Option String) :
    ServerState × List Out :=
  let prof := alGet sid s.userProfiles
  let u : Profile :=
    match prof with
    | some p => { name := jsOrS p.name name, avatar := jsOrOpt p.avatar avatar }
    | none => { name := name, avatar := avatar }
  let profiles' :=
    match prof with
    | some _ => s.userProfiles
    | none => alSet sid { name := name, avatar := avatar } s.userProfiles
  let s' := { s with users := alSet sid u s.users, userProfiles := profiles' }
  let fl := ((alGet sid s'.friends).getD []).map (friendViewSafe s')
  (s', [Out.joinRoom sid "global",
        Out.toSocket sid (.loadHistory s'.globalHistory),
        Out.toSocket sid (.messageSys ⟨"System", "Welcome, " ++ u.name ++ "!", "system"⟩),
        Out.toSocket sid (.friendsUpdate fl),
        Out.toSocket sid (.notificationsUpdate ((alGet sid s'.notifications).getD [])),
        Out.toAll (.voiceUpdate (getVoiceStateFull s'))])

/-- The `updateProfile` handler: no-op for unknown sessions, otherwise
update the session and stored profile, persist, refresh the voice UI. -/
def updateProfileH (s : ServerState) (sid name : String)
    (avatar : Option String) : ServerState × List Out :=
  match alGet sid s.users with
  | none => (s, [])
  | some _ =>
    let p : Profile := { name := name, avatar := avatar }
    let s' := { s with users := alSet sid p s.users,
                       userProfiles := alSet sid p s.userProfiles }
    (s', [Out.savePersistent, Out.toAll (.voiceUpdate (getVoiceStateFull s'))])

/-- The `sendFriendRequest` handler: resolve the target by display name
among live sessions, reject self/unknown targets and duplicates, else
record the pending request plus a mailbox notification and notify the
target live. -/
def sendFriendRequestH (s : ServerState) (sid targetName : String)
    (now : Int) : ServerState × List Out :=
  match alGet sid s.users with
  | none => (s, [])
  | some sender =>
    match s.users.find? (fun e => decide (e.2.name = targetName)) with
    | none => (s, [Out.toSocket sid (.friendRequestError "User not found or cannot add yourself")])
    | some e =>
      let targetSocketId := e.1
      if targetSocketId = sid then
        (s, [Out.toSocket sid (.friendRequestError "User not found or cannot add yourself")])
      else
        let reqs := (alGet targetSocketId s.friendRequests).getD []
        let notifs := (alGet targetSocketId s.notifications).getD []
        let s0 := { s with friendRequests := alSet targetSocketId reqs s.friendRequests,
                           notifications := alSet targetSocketId notifs s.notifications }
        if sid ∈ reqs then
          (s0, [Out.toSocket sid (.friendRequestError "Friend request already sent")])
        else
          let n : Notif := ⟨"friend_request", sid, sender.name, sender.avatar, now⟩
          let s' := { s0 with
                      friendRequests := alSet targetSocketId (reqs ++ [sid]) s0.friendRequests,
                      notifications := alSet targetSocketId (notifs ++ [n]) s0.notifications }
          (s', [Out.savePersistent,
                Out.toSocket targetSocketId (.notification ⟨"friend_request", sid, sender.name, sender.avatar⟩),
                Out.toSocket targetSocketId (.notificationsUpdate (notifs ++ [n])),
                Out.toSocket sid (.friendRequestSent targetName)])

/-- The `acceptFriendRequest` handler.  The guard only checks the pending
request; the mutations (drop the request, add the symmetric edge) happen
first, and then the handler dereferences `users[fromSocketId].name`,
`users[socket.id].name` and `users[id].name` for every listed friend with
no null guard — each is a crash point (`Except.error`) when that session
is gone. -/
def acceptFriendRequestH (s : ServerState) (sid fromId : String) :
    Except String (ServerState × List Out) :=
  match alGet sid s.friendRequests with
  | none => Except.ok (s, [])
  | some reqs =>
    if fromId ∈ reqs then
      let reqs' := reqs.filter (fun i => decide (i ≠ fromId))
      let myF := (alGet sid s.friends).getD []
      let theirF := (alGet fromId s.friends).getD []
      let myF' := if fromId ∈ myF then myF else myF ++ [fromId]
      let theirF' := if sid ∈ theirF then theirF else theirF ++ [sid]
      let s' := { s with friendRequests := alSet sid reqs' s.friendRequests,
                         friends := alSet fromId theirF' (alSet sid myF' s.friends) }
      match alGet fromId s.users with
      | none => Except.error "TypeError: cannot read name of undefined"
      | some pf =>
        match alGet sid s.users with
        | none => Except.error "TypeError: cannot read name of undefined"
        | some ps =>
          match friendViewsStrict s' myF', friendViewsStrict s' theirF' with
          | Except.ok l1, Except.ok l2 =>
            Except.ok (s', [Out.savePersistent,
                  Out.toSocket sid (.friendAccepted fromId pf.name pf.avatar),
                  Out.toSocket fromId (.friendAccepted sid ps.name ps.avatar),
                  Out.toSocket sid (.friendsUpdate l1),
                  Out.toSocket fromId (.friendsUpdate l2)])
          | Except.error msg, _ => Except.error msg
          | _, Except.error msg => Except.error msg
    else Except.ok (s, [])

/-- The `rejectFriendRequest` handler: drop the pending request when the
request list exists, persist, and confirm to the rejecting party only. -/
def rejectFriendRequestH (s : ServerState) (sid fromId : String) :
    ServerState × List Out :=
  match alGet sid s.friendRequests with
  | none => (s, [Out.toSocket sid (.friendRequestRejected fromId)])
  | some reqs =>
    let s' := { s with friendRequests :=
                  alSet sid (reqs.filter (fun i => decide (i ≠ fromId))) s.friendRequests }
    (s', [Out.savePersistent, Out.toSocket sid (.friendRequestRejected fromId)])

/-- The `getFriendsList` handler (read-only). -/
def getFriendsListH (s : ServerState) (sid : String) : ServerState × List Out :=
  (s, [Out.toSocket sid (.friendsUpdate
        (((alGet sid s.friends).getD []).map (friendViewSafe s)))])

/-- The `getNotifications` handler (read-only). -/
def getNotificationsH (s : ServerState) (sid : String) : ServerState × List Out :=
  (s, [Out.toSocket sid (.notificationsUpdate ((alGet sid s.notifications).getD []))])

/-- The `privateMessage` handler: silent no-op when the sender has no
session, the target id is falsy, or the target has no live session;
`privateMessageError` when the target is not in the sender's friend list;
otherwise append the same message object to both mirrored thread views,
persist, and deliver to both parties. -/
def privateMessageH (s : ServerState) (sid targetId text : String)
    (file : Option String) (now : Int) : ServerState × List Out :=
  match alGet sid s.users with
  | none => (s, [])
  | some sender =>
    if targetId = "" then (s, [])
    else
      match alGet targetId s.users with
      | none => (s, [])
      | some _ =>
        if targetId ∈ (alGet sid s.friends).getD [] then
          let msg := mkPrivateMsg sid targetId sender text file now
          let pm' := pmPush (pmPush s.privateMessages sid targetId msg) targetId sid msg
          ({ s with privateMessages := pm' },
           [Out.savePersistent,
            Out.toSocket sid (.privateMessage msg),
            Out.toSocket targetId (.privateMessage msg)])
        else
          (s, [Out.toSocket sid (.privateMessageError "You can only message friends")])

/-- The `getPrivateMessages` handler (read-only, friend-gated). -/
def getPrivateMessagesH (s : ServerState) (sid targetId : String) :
    ServerState × List Out :=
  if targetId ∈ (alGet sid s.friends).getD [] then
    (s, [Out.toSocket sid (.privateMessagesHistory targetId (pmGet s.privateMessages sid targetId))])
  else
    (s, [Out.toSocket sid (.privateMessageError "You can only view messages with friends")])

/-- The `chatMessage` handler: silent no-op for unknown sessions, else
append to the global log, persist the history, broadcast to the room. -/
def chatMessageH (s : ServerState) (sid text : String) (file : Option String)
    (now : Int) : ServerState × List Out :=
  match alGet sid s.users with
  | none => (s, [])
  | some u =>
    let msg := mkChatMsg u text file now
    ({ s with globalHistory := s.globalHistory ++ [msg] },
     [Out.saveHistory, Out.toRoom "global" (.message msg)])

/-- The `joinVoice` handler: if the stored room id is truthy, first run the
leave protocol for it (notify each remaining old-room peer once); then
point `voiceState[sid]` at the new room, refresh everyone's voice UI, and
tell the joiner who is already in the room. -/
def joinVoiceH (s : ServerState) (sid roomId : String) :
    ServerState × List Out :=
  let leaveOuts :=
    match alGet sid s.voiceState with
    | none => []
    | some r =>
      if r = "" then []
      else
        let oldPeers := (s.voiceState.filter
            (fun e => decide (e.2 = r ∧ e.1 ≠ sid))).map Prod.fst
        Out.leaveRoom sid r :: oldPeers.map (fun p => Out.toSocket p (.userLeftVoice sid))
  let vs' := alSet sid roomId s.voiceState
  let s' := { s with voiceState := vs' }
  let peers := (vs'.filter (fun e => decide (e.2 = roomId ∧ e.1 ≠ sid))).map Prod.fst
  (s', leaveOuts ++
       [Out.joinRoom sid roomId,
        Out.toAll (.voiceUpdate (getVoiceStateFull s')),
        Out.toSocket sid (.voicePeers peers)])

/-- The `voiceSignal` handler: a dumb forwarder —
`io.to(data.to).emit('voiceSignal', { from: socket.id, signal })`. -/
def voiceSignalH (s : ServerState) (sid toId signal : String) :
    ServerState × List Out :=
  (s, [Out.toSocket toId (.voiceSignal sid signal)])

/-- The `leaveVoice` handler: no-op when the stored room id is falsy, else
remove the membership, notify each remaining room peer, refresh the UI. -/
def leaveVoiceH (s : ServerState) (sid : String) : ServerState × List Out :=
  match alGet sid s.voiceState with
  | none => (s, [])
  | some r =>
    if r = "" then (s, [])
    else
      let vs' := alDel sid s.voiceState
      let s' := { s with voiceState := vs' }
      let peers := voiceMembers vs' r
      (s', Out.leaveRoom sid r ::
           peers.map (fun p => Out.toSocket p (.userLeftVoice sid)) ++
           [Out.toAll (.voiceUpdate (getVoiceStateFull s'))])

/-- The `disconnect` handler: when the stored room id is truthy, drop the
voice membership and notify the remaining room peers; always drop the live
session entry, refresh the voice UI and persist. -/
def disconnectH (s : ServerState) (sid : String) : ServerState × List Out :=
  let inVoice :=
    match alGet sid s.voiceState with
    | none => false
    | some r => decide (r ≠ "")
  if inVoice then
    let r := ((alGet sid s.voiceState).getD "")
    let vs' := alDel sid s.voiceState
    let peers := voiceMembers vs' r
    let s' := { s with voiceState := vs', users := alDel sid s.users }
    (s', peers.map (fun p => Out.toSocket p (.userLeftVoice sid)) ++
         [Out.toAll (.voiceUpdate (getVoiceStateFull s')), Out.savePersistent])
  else
    let s' := { s with users := alDel sid s.users }
    (s', [Out.toAll (.voiceUpdate (getVoiceStateFull s')), Out.savePersistent])

/-- One inbound transport event, tagged with the emitting connection. -/
inductive InEvent where
  | join (sid name : String) (avatar : Option String)
  | updateProfile (sid name : String) (avatar : Option String)
  | sendFriendRequest (sid targetName : String)
  | acceptFriendRequest (sid fromId : String)
  | rejectFriendRequest (sid fromId : String)
  | getFriendsList (sid : String)
  | getNotifications (sid : String)
  | privateMessage (sid targetId text : String) (file : Option String)
  | getPrivateMessages (sid targetId : String)
  | chatMessage (sid text : String) (file : Option String)
  | joinVoice (sid roomId : String)
  | voiceSignal (sid toId signal : String)
  | leaveVoice (sid : String)
  | disconnect (sid : String)
deriving DecidableEq, Repr

/-- Dispatch one inbound event to its handler.  Handlers that can throw a
JS `TypeError` return `Except.error`; in the real process an uncaught
exception in a handler kills the server, so an erroring step has no
successor state. -/
def stepFn (s : ServerState) (e : InEvent) (now : Int) :
    Except String (ServerState × List Out) :=
  match e with
  | .join sid name avatar => Except.ok (joinH s sid name avatar)
  | .updateProfile sid name avatar => Except.ok (updateProfileH s sid name avatar)
  | .sendFriendRequest sid t => Except.ok (sendFriendRequestH s sid t now)
  | .acceptFriendRequest sid f => acceptFriendRequestH s sid f
  | .rejectFriendRequest sid f => Except.ok (rejectFriendRequestH s sid f)
  | .getFriendsList sid => Except.ok (getFriendsListH s sid)
  | .getNotifications sid => Except.ok (getNotificationsH s sid)
  | .privateMessage sid t text file => Except.ok (privateMessageH s sid t text file now)
  | .getPrivateMessages sid t => Except.ok (getPrivateMessagesH s sid t)
  | .chatMessage sid text file => Except.ok (chatMessageH s sid text file now)
  | .joinVoice sid r => Except.ok (joinVoiceH s sid r)
  | .voiceSignal sid toId sig => Except.ok (voiceSignalH s sid toId sig)
  | .leaveVoice sid => Except.ok (leaveVoiceH s sid)
  | .disconnect sid => Except.ok (disconnectH s sid)

/-- States the running server can be in: the fresh-start state, closed
under every event step that completes without throwing. -/
inductive Reachable : ServerState → Prop where
  | init : Reachable initialState
  | step {s : ServerState} {e : InEvent} {now : Int}
      {p : ServerState × List Out} :
      Reachable s → stepFn s e now = Except.ok p → Reachable p.1

/-- The fields that `persistent_data.json` may carry; any of them can be
absent in the parsed document (`data.x || {}`). -/
structure PersistentDoc where
  friends : Option (List (String × List String))
  friendRequests : Option (List (String × List String))
  notifications : Option (List (String × List Notif))
  privateMessages : Option (List (String × List (String × List Msg)))
  userProfiles : Option (List (String × Profile))
deriving Repr

/-- Outcome of reading + `JSON.parse`-ing the social snapshot at startup:
the file is missing, the read/parse/field access throws, or it parses. -/
inductive PersistentSnapshot where
  | absent
  | corrupt
  | parsed (d : PersistentDoc)

/-- Outcome of reading + parsing the channel-history snapshot at startup.
In this variant the only channel ever referenced is `'global'`, so a
parsed document is embedded as that channel's log. -/
inductive HistorySnapshot where
  | absent
  | corrupt
  | parsed (g : List Msg)

/-- `loadPersistentData()`: a missing file leaves the initial maps in
place; a parse error is caught and logged, also leaving them in place;
a parsed document replaces them field by field with `|| {}` defaults. -/
def loadPersistentData (s : ServerState) (snap : PersistentSnapshot) :
    ServerState :=
  match snap with
  | .absent => s
  | .corrupt => s
  | .parsed d =>
      { s with friends := d.friends.getD [],
               friendRequests := d.friendRequests.getD [],
               notifications := d.notifications.getD [],
               privateMessages := d.privateMessages.getD [],
               userProfiles := d.userProfiles.getD [] }

/-- The module-level history load: missing file or caught parse error keep
`messageHistory = { global: [] }`; a parsed document replaces it. -/
def loadMessageHistory (s : ServerState) (snap : HistorySnapshot) :
    ServerState :=
  match snap with
  | .absent => s
  | .corrupt => s
  | .parsed g => { s with globalHistory := g }

/-- The whole startup load: both snapshot reads applied to the fresh
state. -/
def startupLoad (h : HistorySnapshot) (p : PersistentSnapshot) : ServerState :=
  loadPersistentData (loadMessageHistory initialState h) p

/-- `7 * 24 * 60 * 60 * 1000` — the retention window in milliseconds. -/
def retentionWindowMs : Int := 7 * 24 * 60 * 60 * 1000

/-- Retention filter for one message list: keep
`msg.timestamp > sevenDaysAgo`. -/
def keepRecent (cutoff : Int) (msgs : List Msg) : List Msg :=
  msgs.filter (fun m => decide (cutoff < m.timestamp))

/-- Number of messages the sweep drops from the private-message store. -/
def cleanedCountPM (cutoff : Int)
    (pm : List (String × List (String × List Msg))) : Nat :=
  (pm.map (fun e =>
    (e.2.map (fun t => t.2.length - (keepRecent cutoff t.2).length)).sum)).sum

/-- The swept private-message store. -/
def cleanPM (cutoff : Int) (pm : List (String × List (String × List Msg))) :
    List (String × List (String × List Msg)) :=
  pm.map (fun e => (e.1, e.2.map (fun t => (t.1, keepRecent cutoff t.2))))

/-- `cleanupOldMessages()` (timer-driven): filter the global log and every
private thread by the 7-day cutoff; when anything was dropped, fire both
persistence writes. -/
def cleanupOldMessages (s : ServerState) (now : Int) : ServerState × List Out :=
  let cutoff := now - retentionWindowMs
  let newGlobal := keepRecent cutoff s.globalHistory
  let cleaned := (s.globalHistory.length - newGlobal.length) +
                 cleanedCountPM cutoff s.privateMessages
  let s' := { s with globalHistory := newGlobal,
                     privateMessages := cleanPM cutoff s.privateMessages }
  (s', if 0 < cleaned then [Out.saveHistory, Out.savePersistent] else [])

/-! ## Association-list lemmas -/

theorem alGet_alSet_self (k : String) (v : β) (l : List (String × β)) :
    alGet k (alSet k v l) = some v := by
  induction l with
  | nil => simp [alSet, alGet]
  | cons e rest ih =>
    by_cases h : e.1 = k
    · simp [alSet, alGet, h]
    · simp [alSet, alGet, h, ih]

theorem alGet_alSet_ne (k k' : String) (v : β) (l : List (String × β))
    (h : k' ≠ k) : alGet k' (alSet k v l) = alGet k' l := by
  have hk : ¬ k = k' := fun hh => h hh.symm
  induction l with
  | nil => simp [alSet, alGet, hk]
  | cons e rest ih =>
    by_cases he : e.1 = k
    · simp [alSet, alGet, he, hk]
    · simp [alSet, alGet, he, ih]

theorem alGet_alDel_ne (k k' : String) (l : List (String × β))
    (h : k' ≠ k) : alGet k' (alDel k l) = alGet k' l := by
  have hk : ¬ k = k' := fun hh => h hh.symm
  induction l with
  | nil => simp [alDel]
  | cons e rest ih =>
    by_cases he : e.1 = k
    · simp [alDel, alGet, he, hk]
    · simp [alDel, alGet, he, ih]

theorem alSet_eq_self (k : String) (v : β) (l : List (String × β))
    (h : alGet k l = some v) : alSet k v l = l := by
  induction l with
  | nil => simp [alGet] at h
  | cons e rest ih =>
    obtain ⟨a, b⟩ := e
    by_cases he : a = k
    · subst he
      simp [alGet] at h
      simp [alSet, h]
    · simp [alGet, he] at h
      simp [alSet, he, ih h]

theorem alGet_eq_none_iff (k : String) (l : List (String × β)) :
    alGet k l = none ↔ k ∉ l.map Prod.fst := by
  induction l with
  | nil => simp [alGet]
  | cons e rest ih =>
    by_cases he : e.1 = k
    · simp [alGet, he]
    · have hk : ¬ k = e.1 := fun hh => he hh.symm
      simp [alGet, he, ih, hk]

theorem mem_keys_alSet (k k' : String) (v : β) (l : List (String × β)) :
    k' ∈ (alSet k v l).map Prod.fst ↔ k' = k ∨ k' ∈ l.map Prod.fst := by
  induction l with
  | nil => simp [alSet]
  | cons e rest ih =>
    by_cases he : e.1 = k
    · subst he
      simp [alSet]
    · simp [alSet, he, ih]
      tauto

theorem nodupKeys_alSet (k : String) (v : β) (l : List (String × β))
    (h : NodupKeys l) : NodupKeys (alSet k v l) := by
  induction l with
  | nil => simp [alSet, NodupKeys]
  | cons e rest ih =>
    unfold NodupKeys at h
    simp only [List.map_cons, List.nodup_cons] at h
    by_cases he : e.1 = k
    · unfold NodupKeys
      simp only [alSet, he, if_pos, List.map_cons, List.nodup_cons]
      exact ⟨he ▸ h.1, h.2⟩
    · unfold NodupKeys
      simp only [alSet, he, if_neg, not_false_iff, List.map_cons, List.nodup_cons]
      refine ⟨?_, ih h.2⟩
      intro hmem
      rcases (mem_keys_alSet k e.1 v rest).mp hmem with h1 | h1
      · exact he h1
      · exact h.1 h1

theorem alDel_sublist (k : String) (l : List (String × β)) :
    (alDel k l).Sublist l := by
  induction l with
  | nil => simp [alDel]
  | cons e rest ih =>
    by_cases he : e.1 = k
    · simp only [alDel, he, if_pos]
      exact List.sublist_cons_self e rest
    · simpa [alDel, he] using ih.cons₂ e

theorem nodupKeys_alDel (k : String) (l : List (String × β))
    (h : NodupKeys l) : NodupKeys (alDel k l) := by
  exact List.Nodup.sublist ((alDel_sublist k l).map Prod.fst) h

theorem alGet_alDel_self (k : String) (l : List (String × β))
    (h : NodupKeys l) : alGet k (alDel k l) = none := by
  induction l with
  | nil => simp [alDel, alGet]
  | cons e rest ih =>
    unfold NodupKeys at h
    simp only [List.map_cons, List.nodup_cons] at h
    by_cases he : e.1 = k
    · simp only [alDel, he, if_pos]
      exact (alGet_eq_none_iff k rest).mpr (he ▸ h.1)
    · simp [alDel, alGet, he, ih h.2]

theorem mem_of_alGet_eq_some (k : String) (v : β) (l : List (String × β))
    (h : alGet k l = some v) : (k, v) ∈ l := by
  induction l with
  | nil => simp [alGet] at h
  | cons e rest ih =>
    obtain ⟨a, b⟩ := e
    by_cases he : a = k
    · subst he
      simp [alGet] at h
      subst h
      exact List.mem_cons_self _ _
    · simp [alGet, he] at h
      exact List.mem_cons_of_mem _ (ih h)

theorem alGet_eq_some_of_mem (k : String) (v : β) (l : List (String × β))
    (hnd : NodupKeys l) (h : (k, v) ∈ l) : alGet k l = some v := by
  induction l with
  | nil => simp at h
  | cons e rest ih =>
    unfold NodupKeys at hnd
    simp only [List.map_cons, List.nodup_cons] at hnd
    rcases List.mem_cons.mp h with h1 | h1
    · simp [alGet, ← h1]
    · have hk : k ∈ rest.map Prod.fst :=
        List.mem_map.mpr ⟨(k, v), h1, rfl⟩
      by_cases he : e.1 = k
      · exact absurd (he ▸ hk) hnd.1
      · simp [alGet, he, ih hnd.2 h1]

/-! ## Voice-room membership lemmas -/

theorem mem_voiceMembers (vs : List (String × String)) (r q : String) :
    q ∈ voiceMembers vs r ↔ ∃ e, e ∈ vs ∧ e.1 = q ∧ e.2 = r := by
  unfold voiceMembers
  simp only [List.mem_map, List.mem_filter, decide_eq_true_eq]
  constructor
  · rintro ⟨e, ⟨hm, hr⟩, hq⟩
    exact ⟨e, hm, hq, hr⟩
  · rintro ⟨e, hm, hq, hr⟩
    exact ⟨e, ⟨hm, hr⟩, hq⟩

theorem voiceMembers_nodup (vs : List (String × String)) (r : String)
    (h : NodupKeys vs) : (voiceMembers vs r).Nodup := by
  unfold voiceMembers
  exact List.Nodup.sublist ((List.filter_sublist vs).map Prod.fst) h

theorem voice_unique_room (vs : List (String × String)) (id r1 r2 : String)
    (h : NodupKeys vs) (h1 : (id, r1) ∈ vs) (h2 : (id, r2) ∈ vs) : r1 = r2 := by
  have e1 := alGet_eq_some_of_mem id r1 vs h h1
  have e2 := alGet_eq_some_of_mem id r2 vs h h2
  rw [e1] at e2
  exact Option.some.injEq _ _ ▸ e2.symm ▸ rfl

/-- Filtering away the key `sid` commutes with a write at `sid`. -/
theorem filter_alSet_drop_self (sid v r : String)
    (vs : List (String × String)) :
    (alSet sid v vs).filter (fun e => decide (e.2 = r ∧ e.1 ≠ sid)) =
      vs.filter (fun e => decide (e.2 = r ∧ e.1 ≠ sid)) := by
  induction vs with
  | nil => simp [alSet]
  | cons e rest ih =>
    by_cases he : e.1 = sid
    · simp only [alSet, he, if_pos]
      rw [List.filter_cons, List.filter_cons]
      simp [he]
    · simp only [alSet, he, if_neg, not_false_iff]
      rw [List.filter_cons, List.filter_cons, ih]

/-- If `sid` does not occur among the keys at all, excluding it from a
filter changes nothing. -/
theorem filter_keep_of_not_mem_keys (sid r : String)
    (vs : List (String × String)) (h : sid ∉ vs.map Prod.fst) :
    vs.filter (fun e => decide (e.2 = r ∧ e.1 ≠ sid)) =
      vs.filter (fun e => decide (e.2 = r)) := by
  induction vs with
  | nil => simp
  | cons e rest ih =>
    simp only [List.map_cons, List.mem_cons, not_or] at h
    have h1 : e.1 ≠ sid := fun hh => h.1 hh.symm
    rw [List.filter_cons, List.filter_cons, ih h.2]
    have hd : decide (e.2 = r ∧ e.1 ≠ sid) = decide (e.2 = r) := by
      by_cases hr : e.2 = r <;> simp [hr, h1]
    rw [hd]

/-- Under unique keys, if `sid` is stored in room `r0 ≠ r`, the members of
`r` are untouched by excluding `sid`. -/
theorem filter_drop_self_of_other_room (sid r r0 : String)
    (vs : List (String × String)) (hnd : NodupKeys vs)
    (hs : alGet sid vs = some r0) (hne : r ≠ r0) :
    vs.filter (fun e => decide (e.2 = r ∧ e.1 ≠ sid)) =
      vs.filter (fun e => decide (e.2 = r)) := by
  induction vs with
  | nil => simp
  | cons e rest ih =>
    unfold NodupKeys at hnd
    simp only [List.map_cons, List.nodup_cons] at hnd
    by_cases he : e.1 = sid
    · simp only [alGet, he, if_pos, Option.some.injEq] at hs
      have hrest := filter_keep_of_not_mem_keys sid r rest (he ▸ hnd.1)
      rw [List.filter_cons, List.filter_cons]
      have hdrop : (decide (e.2 = r ∧ e.1 ≠ sid)) = false := by
        have : ¬ (e.2 = r) := fun hh => hne (hs ▸ hh.symm)
        simp [this]
      have hdrop2 : (decide (e.2 = r)) = false := by
        have : ¬ (e.2 = r) := fun hh => hne (hs ▸ hh.symm)
        simp [this]
      rw [hdrop, hdrop2]
      simpa using hrest
    · simp only [alGet, he, if_neg, not_false_iff] at hs
      rw [List.filter_cons, List.filter_cons]
      have hd : (decide (e.2 = r ∧ e.1 ≠ sid)) = decide (e.2 = r) := by
        by_cases hr : e.2 = r <;> simp [hr, he]
      rw [hd, ih hnd.2 hs]

/-! ## Private-message store lemmas -/

theorem pmGet_pmPush_self (pm : List (String × List (String × List Msg)))
    (a b : String) (m : Msg) :
    pmGet (pmPush pm a b m) a b = pmGet pm a b ++ [m] := by
  unfold pmGet pmPush
  rw [alGet_alSet_self]
  cases hp : alGet a pm with
  | none => simp [alGet_alSet_self, alGet]
  | some inner =>
    simp only [Option.getD_some]
    rw [alGet_alSet_self]
    cases ht : alGet b inner <;> simp

theorem pmGet_pmPush_ne (pm : List (String × List (String × List Msg)))
    (a b a' b' : String) (m : Msg) (h : a' ≠ a) :
    pmGet (pmPush pm a b m) a' b' = pmGet pm a' b' := by
  unfold pmGet pmPush
  rw [alGet_alSet_ne _ _ _ _ h]

/-! ## The key-uniqueness invariant of the live-session and voice maps -/

/-- Well-formedness preserved by every event: the `users` and `voiceState`
dictionaries never hold a key twice (true of any JS object). -/
def StateWF (s : ServerState) : Prop :=
  NodupKeys s.users ∧ NodupKeys s.voiceState

theorem stateWF_initial : StateWF initialState := by
  constructor <;> simp [initialState, NodupKeys]

theorem stateWF_step (s : ServerState) (e : InEvent) (now : Int)
    (p : ServerState × List Out) (h : StateWF s)
    (hs : stepFn s e now = Except.ok p) : StateWF p.1 := by
  cases e with
  | join sid name avatar =>
    simp only [stepFn, Except.ok.injEq] at hs
    rw [← hs]
    unfold joinH
    try dsimp only
    exact ⟨nodupKeys_alSet _ _ _ h.1, h.2⟩
  | updateProfile sid name avatar =>
    simp only [stepFn, Except.ok.injEq] at hs
    rw [← hs]
    unfold updateProfileH
    try dsimp only
    repeat' split
    · exact h
    · exact ⟨nodupKeys_alSet _ _ _ h.1, h.2⟩
  | sendFriendRequest sid t =>
    simp only [stepFn, Except.ok.injEq] at hs
    rw [← hs]
    unfold sendFriendRequestH
    try dsimp only
    repeat' split
    all_goals exact h
  | acceptFriendRequest sid f =>
    simp only [stepFn] at hs
    unfold acceptFriendRequestH at hs
    try dsimp only at hs
    repeat' split at hs
    all_goals try cases hs
    all_goals try exact h
  | rejectFriendRequest sid f =>
    simp only [stepFn, Except.ok.injEq] at hs
    rw [← hs]
    unfold rejectFriendRequestH
    try dsimp only
    repeat' split
    all_goals exact h
  | getFriendsList sid =>
    simp only [stepFn, Except.ok.injEq] at hs
    rw [← hs]
    exact h
  | getNotifications sid =>
    simp only [stepFn, Except.ok.injEq] at hs
    rw [← hs]
    exact h
  | privateMessage sid t text file =>
    simp only [stepFn, Except.ok.injEq] at hs
    rw [← hs]
    unfold privateMessageH
    try dsimp only
    repeat' split
    all_goals exact h
  | getPrivateMessages sid t =>
    simp only [stepFn, Except.ok.injEq] at hs
    rw [← hs]
    unfold getPrivateMessagesH
    try dsimp only
    repeat' split
    all_goals exact h
  | chatMessage sid text file =>
    simp only [stepFn, Except.ok.injEq] at hs
    rw [← hs]
    unfold chatMessageH
    try dsimp only
    repeat' split
    all_goals exact h
  | joinVoice sid r =>
    simp only [stepFn, Except.ok.injEq] at hs
    rw [← hs]
    unfold joinVoiceH
    try dsimp only
    exact ⟨h.1, nodupKeys_alSet _ _ _ h.2⟩
  | voiceSignal sid toId sig =>
    simp only [stepFn, Except.ok.injEq] at hs
    rw [← hs]
    exact h
  | leaveVoice sid =>
    simp only [stepFn, Except.ok.injEq] at hs
    rw [← hs]
    unfold leaveVoiceH
    try dsimp only
    repeat' split
    all_goals first
      | exact h
      | exact ⟨h.1, nodupKeys_alDel _ _ h.2⟩
  | disconnect sid =>
    simp only [stepFn, Except.ok.injEq] at hs
    rw [← hs]
    unfold disconnectH
    try dsimp only
    repeat' split
    all_goals first
      | exact ⟨nodupKeys_alDel _ _ h.1, nodupKeys_alDel _ _ h.2⟩
      | exact ⟨nodupKeys_alDel _ _ h.1, h.2⟩

theorem reachable_stateWF (s : ServerState) (h : Reachable s) : StateWF s := by
  induction h with
  | init => exact stateWF_initial
  | step hr hok ih => exact stateWF_step _ _ _ _ ih hok

/-! ## Handler characterization lemmas -/

theorem mem_keys_of_mem_voiceMembers (vs : List (String × String))
    (r q : String) (h : q ∈ voiceMembers vs r) : q ∈ vs.map Prod.fst := by
  rcases (mem_voiceMembers vs r q).mp h with ⟨e, hm, hq, _⟩
  exact List.mem_map.mpr ⟨e, hm, hq⟩

/-- `disconnect` for a connection stored in a truthy voice room: both the
session entry and the voice entry are deleted, nothing else changes. -/
theorem disconnectH_state_voice (s : ServerState) (sid r : String)
    (hv : alGet sid s.voiceState = some r) (hr : r ≠ "") :
    (disconnectH s sid).1 =
      { s with voiceState := alDel sid s.voiceState,
               users := alDel sid s.users } := by
  unfold disconnectH
  simp [hv, hr]

/-- `disconnect` for a connection in no voice room: only the session entry
is deleted. -/
theorem disconnectH_state_none (s : ServerState) (sid : String)
    (hv : alGet sid s.voiceState = none) :
    (disconnectH s sid).1 = { s with users := alDel sid s.users } := by
  unfold disconnectH
  simp [hv]

/-- `disconnect` for a connection whose stored room id is the falsy `""`:
the `if (room)` guard skips the voice cleanup, so only the session entry
is deleted. -/
theorem disconnectH_state_falsy (s : ServerState) (sid : String)
    (hv : alGet sid s.voiceState = some "") :
    (disconnectH s sid).1 = { s with users := alDel sid s.users } := by
  unfold disconnectH
  simp [hv]

theorem joinVoiceH_voiceState (s : ServerState) (sid r : String) :
    (joinVoiceH s sid r).1.voiceState = alSet sid r s.voiceState := rfl

/-! ## Claims -/

/-- **C9.**  `relaySignal(A, B, payload)` (the `voiceSignal` handler)
delivers exactly one event to connection `B` containing
`{ from: A, signal: payload }`, leaves the state untouched, and has no
precondition on the voice-room membership of `A` or `B` — the statement
quantifies over arbitrary states and connection ids. -/
theorem C9_voice_signal_exactly_once (s : ServerState) (a b payload : String) :
    voiceSignalH s a b payload =
      (s, [Out.toSocket b (.voiceSignal a payload)]) ∧
    (voiceSignalH s a b payload).2.count
      (Out.toSocket b (.voiceSignal a payload)) = 1 ∧
    (voiceSignalH s a b payload).1 = s := by
  refine ⟨rfl, ?_, rfl⟩
  simp [voiceSignalH]

/-- **C8.**  Startup load from a missing or corrupt history snapshot and a
missing or corrupt social snapshot completes (it is a total function) and
yields exactly the empty initialized state: empty friend graph, pending
requests, mailboxes, private threads, profiles, and an empty global
channel history. -/
theorem C8_load_fallback_empty (h : HistorySnapshot) (p : PersistentSnapshot)
    (hh : h = HistorySnapshot.absent ∨ h = HistorySnapshot.corrupt)
    (hp : p = PersistentSnapshot.absent ∨ p = PersistentSnapshot.corrupt) :
    startupLoad h p = initialState ∧
    initialState.friends = [] ∧ initialState.friendRequests = [] ∧
    initialState.notifications = [] ∧ initialState.privateMessages = [] ∧
    initialState.globalHistory = [] ∧ initialState.userProfiles = [] ∧
    initialState.users = [] := by
  rcases hh with hh | hh <;> rcases hp with hp | hp <;> subst hh <;> subst hp <;>
    exact ⟨rfl, rfl, rfl, rfl, rfl, rfl, rfl, rfl⟩

/-- Witness for C8 at the concrete corrupt/corrupt snapshot pair. -/
theorem C8_load_fallback_empty_witness :
    startupLoad HistorySnapshot.corrupt PersistentSnapshot.corrupt =
      initialState ∧
    initialState.friends = [] ∧ initialState.friendRequests = [] ∧
    initialState.notifications = [] ∧ initialState.privateMessages = [] ∧
    initialState.globalHistory = [] ∧ initialState.userProfiles = [] ∧
    initialState.users = [] :=
  C8_load_fallback_empty HistorySnapshot.corrupt PersistentSnapshot.corrupt
    (Or.inr rfl) (Or.inr rfl)

/-- **C10.**  The `disconnect` handler removes the live session entry and
the disconnecting connection's voice-room membership and nothing else:
friend edges, pending requests, mailboxes, private threads, profiles and
the channel log are untouched, every other connection's session and voice
entries read the same, and afterwards the connection is a member of no
voice room.  ("In a voice room" follows the code's own `if (room)`
truthiness test: a stored empty-string room id means not in any room, and
in that corner the stale falsy entry is simply retained unchanged.) -/
theorem C10_disconnect_frame (s : ServerState) (sid : String)
    (hnd : NodupKeys s.voiceState) :
    (disconnectH s sid).1.friends = s.friends ∧
    (disconnectH s sid).1.friendRequests = s.friendRequests ∧
    (disconnectH s sid).1.notifications = s.notifications ∧
    (disconnectH s sid).1.privateMessages = s.privateMessages ∧
    (disconnectH s sid).1.userProfiles = s.userProfiles ∧
    (disconnectH s sid).1.globalHistory = s.globalHistory ∧
    (disconnectH s sid).1.users = alDel sid s.users ∧
    (∀ q, q ≠ sid → alGet q (disconnectH s sid).1.users = alGet q s.users) ∧
    (∀ q, q ≠ sid →
        alGet q (disconnectH s sid).1.voiceState = alGet q s.voiceState) ∧
    (∀ r, r ≠ "" → sid ∉ voiceMembers (disconnectH s sid).1.voiceState r) := by
  rcases hv : alGet sid s.voiceState with _ | r0
  · rw [disconnectH_state_none s sid hv]
    refine ⟨rfl, rfl, rfl, rfl, rfl, rfl, rfl, ?_, ?_, ?_⟩
    · intro q hq
      exact alGet_alDel_ne sid q s.users hq
    · intro q _
      rfl
    · intro r _ hmem
      exact ((alGet_eq_none_iff sid s.voiceState).mp hv)
        (mem_keys_of_mem_voiceMembers _ r sid hmem)
  · by_cases hr0 : r0 = ""
    · subst hr0
      rw [disconnectH_state_falsy s sid hv]
      refine ⟨rfl, rfl, rfl, rfl, rfl, rfl, rfl, ?_, ?_, ?_⟩
      · intro q hq
        exact alGet_alDel_ne sid q s.users hq
      · intro q _
        rfl
      · intro r hr hmem
        rcases (mem_voiceMembers s.voiceState r sid).mp hmem with ⟨e, hm, hq, hrr⟩
        obtain ⟨a, b⟩ := e
        simp only at hq hrr
        have hm2 : (sid, r) ∈ s.voiceState := by
          have hab : (a, b) = (sid, r) := by rw [hq, hrr]
          rw [← hab]
          exact hm
        have := alGet_eq_some_of_mem sid r s.voiceState hnd hm2
        rw [hv] at this
        exact hr (Option.some.inj this).symm
    · rw [disconnectH_state_voice s sid r0 hv hr0]
      refine ⟨rfl, rfl, rfl, rfl, rfl, rfl, rfl, ?_, ?_, ?_⟩
      · intro q hq
        exact alGet_alDel_ne sid q s.users hq
      · intro q hq
        exact alGet_alDel_ne sid q s.voiceState hq
      · intro r _ hmem
        have hk := mem_keys_of_mem_voiceMembers _ r sid hmem
        have hn := alGet_alDel_self sid s.voiceState hnd
        exact ((alGet_eq_none_iff sid (alDel sid s.voiceState)).mp hn) hk

/-- A tiny concrete state for the C10 witness: one session, in voice
room `"L"`. -/
def c10State : ServerState :=
  { users := [("A", ⟨"alice", none⟩)], voiceState := [("A", "L")],
    globalHistory := [], privateMessages := [], friends := [("A", ["B"])],
    friendRequests := [], notifications := [], userProfiles := [] }

/-- Witness for C10: at `c10State`, disconnecting `"A"` keeps the friend
edges and deletes exactly the session entry. -/
theorem C10_disconnect_frame_witness :
    (disconnectH c10State "A").1.friends = c10State.friends ∧
    (disconnectH c10State "A").1.users = alDel "A" c10State.users :=
  ⟨(C10_disconnect_frame c10State "A" (by unfold NodupKeys; decide)).1,
   (C10_disconnect_frame c10State "A" (by unfold NodupKeys; decide)).2.2.2.2.2.2.1⟩

/-- **C4.**  In every reachable state voice-room membership is a set:
no member list holds a connection twice, a connection maps to at most one
room (`voiceState` is a key-unique dictionary), re-joining the room the
connection is already in leaves that room's membership size unchanged,
and the first two facts are preserved by every event step (in particular
`joinVoice`, `leaveVoice` and `disconnect`). -/
theorem C4_voice_set_invariant (s : ServerState) (h : Reachable s) :
    (∀ r, (voiceMembers s.voiceState r).Nodup) ∧
    (∀ id r1 r2, (id, r1) ∈ s.voiceState → (id, r2) ∈ s.voiceState → r1 = r2) ∧
    (∀ id r, alGet id s.voiceState = some r →
        (voiceMembers (joinVoiceH s id r).1.voiceState r).length =
          (voiceMembers s.voiceState r).length) ∧
    (∀ e now p, stepFn s e now = Except.ok p →
        (∀ r, (voiceMembers p.1.voiceState r).Nodup) ∧
        (∀ id r1 r2, (id, r1) ∈ p.1.voiceState → (id, r2) ∈ p.1.voiceState →
          r1 = r2)) := by
  have hwf := reachable_stateWF s h
  refine ⟨fun r => voiceMembers_nodup _ r hwf.2,
          fun id r1 r2 h1 h2 => voice_unique_room _ id r1 r2 hwf.2 h1 h2,
          ?_, ?_⟩
  · intro id r hget
    rw [joinVoiceH_voiceState, alSet_eq_self id r s.voiceState hget]
  · intro e now p hp
    have hwf2 := stateWF_step s e now p hwf hp
    exact ⟨fun r => voiceMembers_nodup _ r hwf2.2,
           fun id r1 r2 h1 h2 => voice_unique_room _ id r1 r2 hwf2.2 h1 h2⟩

/-- A reachable state with one voice membership, for the C4 witness. -/
def c4State : ServerState := (joinVoiceH initialState "A" "L").1

theorem c4State_reachable : Reachable c4State :=
  Reachable.step Reachable.init
    (rfl : stepFn initialState (InEvent.joinVoice "A" "L") 0 =
      Except.ok (joinVoiceH initialState "A" "L"))

/-- Witness for C4: re-joining room `"L"` from inside it leaves the
membership size unchanged. -/
theorem C4_voice_set_invariant_witness :
    (voiceMembers (joinVoiceH c4State "A" "L").1.voiceState "L").length =
      (voiceMembers c4State.voiceState "L").length :=
  (C4_voice_set_invariant c4State c4State_reachable).2.2.1 "A" "L" (by decide)

/-- The outputs of `joinVoice` for a connection currently stored in the
truthy room `R1`: leave the old transport room, one `userLeftVoice` per
remaining old-room peer, join the new room, a global presence refresh,
and the peer list of the new room to the joiner. -/
theorem joinVoiceH_outs_of_in_room (s : ServerState) (sid R1 R2 : String)
    (hin : alGet sid s.voiceState = some R1) (hR1 : R1 ≠ "") :
    (joinVoiceH s sid R2).2 =
      Out.leaveRoom sid R1 ::
      ((s.voiceState.filter (fun e => decide (e.2 = R1 ∧ e.1 ≠ sid))).map Prod.fst).map
        (fun p => Out.toSocket p (.userLeftVoice sid)) ++
      [Out.joinRoom sid R2,
       Out.toAll (.voiceUpdate (getVoiceStateFull
         { s with voiceState := alSet sid R2 s.voiceState })),
       Out.toSocket sid (.voicePeers (((alSet sid R2 s.voiceState).filter
         (fun e => decide (e.2 = R2 ∧ e.1 ≠ sid))).map Prod.fst))] := by
  unfold joinVoiceH
  simp [hin, hR1]

/-- **C5.**  For a connection in voice room `R1` (a truthy room id, the
code's own notion of being in a room), `joinVoice R2` with `R2 ≠ R1`
removes it from `R1`'s membership and adds it to `R2`'s, delivers exactly
one `userLeftVoice` event carrying its id to every other `R1` member,
sends the joiner the pre-state list of peers in `R2`, and broadcasts a
full presence-state update to all connections. -/
theorem C5_switch_voice_room (s : ServerState) (sid R1 R2 : String)
    (hnd : NodupKeys s.voiceState)
    (hin : alGet sid s.voiceState = some R1) (hR1 : R1 ≠ "") (hne : R2 ≠ R1) :
    sid ∉ voiceMembers (joinVoiceH s sid R2).1.voiceState R1 ∧
    sid ∈ voiceMembers (joinVoiceH s sid R2).1.voiceState R2 ∧
    (∀ q, q ∈ voiceMembers s.voiceState R1 → q ≠ sid →
        ((joinVoiceH s sid R2).2.count
          (Out.toSocket q (.userLeftVoice sid))) = 1) ∧
    Out.toSocket sid (.voicePeers (voiceMembers s.voiceState R2)) ∈
      (joinVoiceH s sid R2).2 ∧
    Out.toAll (.voiceUpdate (getVoiceStateFull (joinVoiceH s sid R2).1)) ∈
      (joinVoiceH s sid R2).2 := by
  have hnd2 : NodupKeys (alSet sid R2 s.voiceState) := nodupKeys_alSet _ _ _ hnd
  have hvs : (joinVoiceH s sid R2).1.voiceState = alSet sid R2 s.voiceState :=
    joinVoiceH_voiceState s sid R2
  have houts := joinVoiceH_outs_of_in_room s sid R1 R2 hin hR1
  have hpeers : (((alSet sid R2 s.voiceState).filter
      (fun e => decide (e.2 = R2 ∧ e.1 ≠ sid))).map Prod.fst) =
      voiceMembers s.voiceState R2 := by
    rw [filter_alSet_drop_self,
        filter_drop_self_of_other_room sid R2 R1 s.voiceState hnd hin hne]
    rfl
  refine ⟨?_, ?_, ?_, ?_, ?_⟩
  · rw [hvs]
    intro hmem
    rcases (mem_voiceMembers _ R1 sid).mp hmem with ⟨e, hm, hq, hrr⟩
    obtain ⟨a, b⟩ := e
    simp only at hq hrr
    have hm2 : (sid, R1) ∈ alSet sid R2 s.voiceState := by
      have hab : (a, b) = (sid, R1) := by rw [hq, hrr]
      rw [← hab]
      exact hm
    have h1 := alGet_eq_some_of_mem sid R1 _ hnd2 hm2
    rw [alGet_alSet_self] at h1
    exact hne (Option.some.inj h1)
  · rw [hvs]
    refine (mem_voiceMembers _ R2 sid).mpr ⟨(sid, R2), ?_, rfl, rfl⟩
    exact mem_of_alGet_eq_some sid R2 _ (alGet_alSet_self sid R2 s.voiceState)
  · intro q hq hqs
    rw [houts]
    have hinj : Function.Injective
        (fun p => Out.toSocket p (Event.userLeftVoice sid)) := by
      intro x y hxy
      simpa using hxy
    have hqmem : q ∈ (s.voiceState.filter
        (fun e => decide (e.2 = R1 ∧ e.1 ≠ sid))).map Prod.fst := by
      rcases (mem_voiceMembers _ R1 q).mp hq with ⟨e, hm, hq1, hr1⟩
      refine List.mem_map.mpr ⟨e, List.mem_filter.mpr ⟨hm, ?_⟩, hq1⟩
      simp [hr1, hq1, hqs]
    have hnod : ((s.voiceState.filter
        (fun e => decide (e.2 = R1 ∧ e.1 ≠ sid))).map Prod.fst).Nodup :=
      List.Nodup.sublist ((List.filter_sublist s.voiceState).map Prod.fst) hnd
    have hcnt := List.count_eq_one_of_mem hnod hqmem
    have hmap := List.count_map_of_injective
      ((s.voiceState.filter (fun e => decide (e.2 = R1 ∧ e.1 ≠ sid))).map Prod.fst)
      (fun p => Out.toSocket p (Event.userLeftVoice sid)) hinj q
    simp only [List.count_cons, List.count_append, List.count_nil]
    rw [hmap, hcnt]
    simp [hqs]
  · rw [houts, hpeers]
    simp
  · have hst : (joinVoiceH s sid R2).1 =
        { s with voiceState := alSet sid R2 s.voiceState } := rfl
    rw [houts, hst]
    simp

/-- A concrete three-member voice state for the C5 witness. -/
def c5State : ServerState :=
  { users := [], voiceState := [("A", "L1"), ("B", "L1"), ("C", "L2")],
    globalHistory := [], privateMessages := [], friends := [],
    friendRequests := [], notifications := [], userProfiles := [] }

/-- Witness for C5: when `"A"` switches from `"L1"` to `"L2"`, the
remaining `"L1"` member `"B"` receives exactly one `userLeftVoice`. -/
theorem C5_switch_voice_room_witness :
    ((joinVoiceH c5State "A" "L2").2.count
      (Out.toSocket "B" (Event.userLeftVoice "A"))) = 1 :=
  (C5_switch_voice_room c5State "A" "L1" "L2" (by unfold NodupKeys; decide)
    (by decide) (by decide) (by decide)).2.2.1 "B" (by decide) (by decide)

theorem keepRecent_sublist (c : Int) (l : List Msg) :
    (keepRecent c l).Sublist l := List.filter_sublist l

theorem keepRecent_eq_iff (c : Int) (l : List Msg) :
    keepRecent c l = l ↔ l.length - (keepRecent c l).length = 0 := by
  have hs := keepRecent_sublist c l
  have hle := hs.length_le
  constructor
  · intro h
    rw [h]
    omega
  · intro h
    exact hs.eq_of_length (by omega)

theorem cleanThreads_eq_iff (c : Int) (inner : List (String × List Msg)) :
    inner.map (fun t => (t.1, keepRecent c t.2)) = inner ↔
      (inner.map (fun t => t.2.length - (keepRecent c t.2).length)).sum = 0 := by
  induction inner with
  | nil => simp
  | cons t rest ih =>
    obtain ⟨k, msgs⟩ := t
    simp only [List.map_cons, List.sum_cons, List.cons.injEq, Prod.mk.injEq,
      true_and, Nat.add_eq_zero]
    rw [ih, keepRecent_eq_iff]

theorem cleanPM_eq_iff (c : Int)
    (pm : List (String × List (String × List Msg))) :
    cleanPM c pm = pm ↔ cleanedCountPM c pm = 0 := by
  induction pm with
  | nil => simp [cleanPM, cleanedCountPM]
  | cons e rest ih =>
    obtain ⟨u, inner⟩ := e
    unfold cleanPM cleanedCountPM at *
    simp only [List.map_cons, List.sum_cons, List.cons.injEq, Prod.mk.injEq,
      true_and, Nat.add_eq_zero]
    rw [ih, cleanThreads_eq_iff]

theorem alGet_map_snd (g : γ → δ) (k : String) (l : List (String × γ)) :
    alGet k (l.map (fun e => (e.1, g e.2))) = (alGet k l).map g := by
  induction l with
  | nil => simp [alGet]
  | cons e rest ih =>
    by_cases he : e.1 = k <;> simp [alGet, he, ih]

theorem pmGet_cleanPM (c : Int) (pm : List (String × List (String × List Msg)))
    (a b : String) : pmGet (cleanPM c pm) a b = keepRecent c (pmGet pm a b) := by
  unfold pmGet cleanPM
  rw [alGet_map_snd]
  cases alGet a pm with
  | none => simp [keepRecent]
  | some inner =>
    simp only [Option.map_some']
    rw [alGet_map_snd]
    cases alGet b inner <;> simp [keepRecent]

/-- **C6.**  After a retention sweep at wall-clock `now` with the 7-day
window `W`, every surviving message in the (only) channel log and in every
private thread satisfies `now - timestamp <= W`; the sweep only removes
entries whose age has reached the window (`now - timestamp >= W`, i.e.
strictly beyond the `timestamp > now - W` retention test), preserves the
relative order of survivors (sublist), and fires the persistence writes
iff at least one message was evicted (eviction being the only mutation,
"some message evicted" is exactly "the stores changed"). -/
theorem C6_retention_sweep (s : ServerState) (now : Int) :
    (∀ m ∈ (cleanupOldMessages s now).1.globalHistory,
        now - m.timestamp ≤ retentionWindowMs) ∧
    (∀ a b m, m ∈ pmGet (cleanupOldMessages s now).1.privateMessages a b →
        now - m.timestamp ≤ retentionWindowMs) ∧
    ((cleanupOldMessages s now).1.globalHistory.Sublist s.globalHistory) ∧
    (∀ a b, (pmGet (cleanupOldMessages s now).1.privateMessages a b).Sublist
        (pmGet s.privateMessages a b)) ∧
    (∀ m ∈ s.globalHistory, m ∉ (cleanupOldMessages s now).1.globalHistory →
        retentionWindowMs ≤ now - m.timestamp) ∧
    (∀ a b m, m ∈ pmGet s.privateMessages a b →
        m ∉ pmGet (cleanupOldMessages s now).1.privateMessages a b →
        retentionWindowMs ≤ now - m.timestamp) ∧
    ((cleanupOldMessages s now).2 ≠ [] ↔
      ((cleanupOldMessages s now).1.globalHistory ≠ s.globalHistory ∨
       (cleanupOldMessages s now).1.privateMessages ≠ s.privateMessages)) ∧
    ((cleanupOldMessages s now).2 = [] ∨
     (cleanupOldMessages s now).2 = [Out.saveHistory, Out.savePersistent]) := by
  have hg : (cleanupOldMessages s now).1.globalHistory =
      keepRecent (now - retentionWindowMs) s.globalHistory := rfl
  have hpm : (cleanupOldMessages s now).1.privateMessages =
      cleanPM (now - retentionWindowMs) s.privateMessages := rfl
  refine ⟨?_, ?_, ?_, ?_, ?_, ?_, ?_, ?_⟩
  · intro m hm
    rw [hg] at hm
    have := (List.mem_filter.mp hm).2
    simp only [decide_eq_true_eq] at this
    omega
  · intro a b m hm
    rw [hpm, pmGet_cleanPM] at hm
    have := (List.mem_filter.mp hm).2
    simp only [decide_eq_true_eq] at this
    omega
  · rw [hg]
    exact keepRecent_sublist _ _
  · intro a b
    rw [hpm, pmGet_cleanPM]
    exact keepRecent_sublist _ _
  · intro m hm hnm
    rw [hg] at hnm
    by_cases hts : now - retentionWindowMs < m.timestamp
    · exact absurd (List.mem_filter.mpr ⟨hm, by simp [hts]⟩) hnm
    · omega
  · intro a b m hm hnm
    rw [hpm, pmGet_cleanPM] at hnm
    by_cases hts : now - retentionWindowMs < m.timestamp
    · exact absurd (List.mem_filter.mpr ⟨hm, by simp [hts]⟩) hnm
    · omega
  · rw [hg, hpm]
    have houts : (cleanupOldMessages s now).2 =
        (if 0 < (s.globalHistory.length -
            (keepRecent (now - retentionWindowMs) s.globalHistory).length) +
            cleanedCountPM (now - retentionWindowMs) s.privateMessages then
          [Out.saveHistory, Out.savePersistent] else []) := rfl
    rw [houts]
    have hle := (keepRecent_sublist (now - retentionWindowMs) s.globalHistory).length_le
    by_cases hc : 0 < (s.globalHistory.length -
        (keepRecent (now - retentionWindowMs) s.globalHistory).length) +
        cleanedCountPM (now - retentionWindowMs) s.privateMessages
    · simp only [hc, if_pos]
      constructor
      · intro _
        by_contra hcon
        push_neg at hcon
        have h1 := hcon.1
        have h2 := hcon.2
        rw [keepRecent_eq_iff] at h1
        rw [cleanPM_eq_iff] at h2
        omega
      · intro _
        simp
    · simp only [hc, if_neg, not_false_iff]
      have hc0 : (s.globalHistory.length -
          (keepRecent (now - retentionWindowMs) s.globalHistory).length) = 0 ∧
          cleanedCountPM (now - retentionWindowMs) s.privateMessages = 0 := by
        omega
      constructor
      · intro hcon
        exact absurd rfl hcon
      · intro hcon
        rcases hcon with hcon | hcon
        · exact absurd ((keepRecent_eq_iff _ _).mpr hc0.1) hcon
        · exact absurd ((cleanPM_eq_iff _ _).mpr hc0.2) hcon
  · have houts : (cleanupOldMessages s now).2 =
        (if 0 < (s.globalHistory.length -
            (keepRecent (now - retentionWindowMs) s.globalHistory).length) +
            cleanedCountPM (now - retentionWindowMs) s.privateMessages then
          [Out.saveHistory, Out.savePersistent] else []) := rfl
    rw [houts]
    split
    · right
      rfl
    · left
      rfl


/-- `privateMessage` on a live sender and live target who is not in the
sender's friend list: `privateMessageError` to the sender only, state
unchanged. -/
theorem privateMessageH_not_friends (s : ServerState) (A B text : String)
    (file : Option String) (now : Int) (pa pb : Profile)
    (hA : alGet A s.users = some pa) (hB : alGet B s.users = some pb)
    (hBne : B ≠ "") (hnf : B ∉ (alGet A s.friends).getD []) :
    privateMessageH s A B text file now =
      (s, [Out.toSocket A (.privateMessageError "You can only message friends")]) := by
  simp [privateMessageH, hA, hB, hBne, hnf]

/-- `privateMessage` on friends: the same message object is pushed to both
mirrored thread views, persisted and delivered to both parties. -/
theorem privateMessageH_friends (s : ServerState) (A B text : String)
    (file : Option String) (now : Int) (pa pb : Profile)
    (hA : alGet A s.users = some pa) (hB : alGet B s.users = some pb)
    (hBne : B ≠ "") (hf : B ∈ (alGet A s.friends).getD []) :
    privateMessageH s A B text file now =
      ({ s with privateMessages :=
          (pmPush (pmPush s.privateMessages A B (mkPrivateMsg A B pa text file now))
            B A (mkPrivateMsg A B pa text file now)) },
       [Out.savePersistent,
        Out.toSocket A (.privateMessage (mkPrivateMsg A B pa text file now)),
        Out.toSocket B (.privateMessage (mkPrivateMsg A B pa text file now))]) := by
  simp [privateMessageH, hA, hB, hBne, hf, mkPrivateMsg]

theorem mem_edge_helper (f : List (String × List String)) (A B : String)
    (hAB : A ≠ B) (lA lB : List String) (hlA : B ∈ lA) (hlB : A ∈ lB) :
    B ∈ (alGet A (alSet A lA (alSet B lB f))).getD [] ∧
    A ∈ (alGet B (alSet A lA (alSet B lB f))).getD [] := by
  constructor
  · rw [alGet_alSet_self]
    simpa
  · rw [alGet_alSet_ne _ _ _ _ (fun hh => hAB hh.symm), alGet_alSet_self]
    simpa

/-- When `acceptFriendRequest` completes without throwing on a pending
request, the symmetric friend edge exists afterwards. -/
theorem acceptFriendRequestH_edge (s : ServerState) (B A : String)
    (hreq : A ∈ (alGet B s.friendRequests).getD [])
    (hAB : A ≠ B) (p : ServerState × List Out)
    (hok : acceptFriendRequestH s B A = Except.ok p) :
    B ∈ (alGet A p.1.friends).getD [] ∧ A ∈ (alGet B p.1.friends).getD [] := by
  unfold acceptFriendRequestH at hok
  rcases hfr : alGet B s.friendRequests with _ | reqs
  · rw [hfr] at hreq
    simp at hreq
  · rw [hfr] at hok hreq
    simp only [Option.getD_some] at hreq
    dsimp only at hok
    rw [if_pos hreq] at hok
    repeat' split at hok
    all_goals try (cases hok)
    all_goals apply mem_edge_helper s.friends A B hAB
    all_goals first | assumption | simp

/-- **C1.**  For distinct live identities `A` and `B`: a private message
send fails with the NotFriends error (state unchanged, error to the
sender only) while no `B`-edge is in `A`'s friend list; accepting `A`'s
pending request establishes the symmetric `A`–`B` edge; and once the edge
exists, the send appends one identical message object (same author, text,
attachment, timestamp) to `A`'s view and to `B`'s view of the thread, so
mirrored views stay element-wise identical, and delivers it to both. -/
theorem C1_private_message_gate (s : ServerState) (A B text : String)
    (file : Option String) (now : Int) (pa pb : Profile)
    (hA : alGet A s.users = some pa) (hB : alGet B s.users = some pb)
    (hBne : B ≠ "") (hAB : A ≠ B) :
    (B ∉ (alGet A s.friends).getD [] →
      privateMessageH s A B text file now =
        (s, [Out.toSocket A (.privateMessageError "You can only message friends")])) ∧
    (∀ p, A ∈ (alGet B s.friendRequests).getD [] →
        acceptFriendRequestH s B A = Except.ok p →
        B ∈ (alGet A p.1.friends).getD [] ∧ A ∈ (alGet B p.1.friends).getD []) ∧
    (B ∈ (alGet A s.friends).getD [] →
      pmGet (privateMessageH s A B text file now).1.privateMessages A B =
        pmGet s.privateMessages A B ++ [mkPrivateMsg A B pa text file now] ∧
      pmGet (privateMessageH s A B text file now).1.privateMessages B A =
        pmGet s.privateMessages B A ++ [mkPrivateMsg A B pa text file now] ∧
      (pmGet s.privateMessages A B = pmGet s.privateMessages B A →
        pmGet (privateMessageH s A B text file now).1.privateMessages A B =
          pmGet (privateMessageH s A B text file now).1.privateMessages B A) ∧
      (privateMessageH s A B text file now).2 =
        [Out.savePersistent,
         Out.toSocket A (.privateMessage (mkPrivateMsg A B pa text file now)),
         Out.toSocket B (.privateMessage (mkPrivateMsg A B pa text file now))]) := by
  have hBA : B ≠ A := fun hh => hAB hh.symm
  refine ⟨?_, ?_, ?_⟩
  · intro hnf
    exact privateMessageH_not_friends s A B text file now pa pb hA hB hBne hnf
  · intro p hreq hok
    exact acceptFriendRequestH_edge s B A hreq hAB p hok
  · intro hf
    rw [privateMessageH_friends s A B text file now pa pb hA hB hBne hf]
    dsimp only
    have h1 : pmGet (pmPush (pmPush s.privateMessages A B
          (mkPrivateMsg A B pa text file now)) B A
          (mkPrivateMsg A B pa text file now)) A B =
        pmGet s.privateMessages A B ++ [mkPrivateMsg A B pa text file now] := by
      rw [pmGet_pmPush_ne _ _ _ _ _ _ hAB, pmGet_pmPush_self]
    have h2 : pmGet (pmPush (pmPush s.privateMessages A B
          (mkPrivateMsg A B pa text file now)) B A
          (mkPrivateMsg A B pa text file now)) B A =
        pmGet s.privateMessages B A ++ [mkPrivateMsg A B pa text file now] := by
      rw [pmGet_pmPush_self, pmGet_pmPush_ne _ _ _ _ _ _ hBA]
    refine ⟨h1, h2, ?_, rfl⟩
    intro hmirror
    rw [h1, h2, hmirror]

/-- The scenario states shared by several witnesses: alice joins, bob
joins, alice sends bob a friend request. -/
def sJoinA : ServerState := (joinH initialState "A" "alice" none).1

def sJoinAB : ServerState := (joinH sJoinA "B" "bob" none).1

def sReqAB : ServerState := (sendFriendRequestH sJoinAB "A" "bob" 1).1

/-- Witness for C1: in the pending-request state (no edge yet), alice's
private message to bob is rejected with the NotFriends error and the
state is unchanged. -/
theorem C1_private_message_gate_witness :
    privateMessageH sReqAB "A" "B" "hi" none 5 =
      (sReqAB, [Out.toSocket "A"
        (.privateMessageError "You can only message friends")]) :=
  (C1_private_message_gate sReqAB "A" "B" "hi" none 5
    ⟨"alice", none⟩ ⟨"bob", none⟩ (by decide) (by decide) (by decide)
    (by decide)).1 (by decide)

/-- A stale message for the C6 witness. -/
def c6Msg : Msg :=
  { fromId := none, toId := none, user := "alice", avatar := none,
    text := "old", file := none, mtype := "user", time := "",
    timestamp := 0 }

/-- A state holding one message that is past the retention window at
`now = retentionWindowMs + 1`. -/
def c6State : ServerState := { initialState with globalHistory := [c6Msg] }

/-- Witness for C6: sweeping a log with one expired message fires both
persistence writes. -/
theorem C6_retention_sweep_witness :
    (cleanupOldMessages c6State (retentionWindowMs + 1)).2 =
      [Out.saveHistory, Out.savePersistent] := by
  rcases (C6_retention_sweep c6State (retentionWindowMs + 1)).2.2.2.2.2.2.2 with h0 | h1
  · exfalso
    exact (C6_retention_sweep c6State (retentionWindowMs + 1)).2.2.2.2.2.2.1.mpr
      (Or.inl (by decide)) h0
  · exact h1

/-- Whether a handler output can reach connection `q`: directly addressed
to it, or a room/global broadcast. -/
def observableBy (q : String) (o : Out) : Bool :=
  match o with
  | Out.toSocket sid _ => sid == q
  | Out.toRoom _ _ => true
  | Out.toAll _ => true
  | _ => false

/-- Whether an output carries a `message`-typed wire event (chat or
system message). -/
def carriesMessage (o : Out) : Bool :=
  match o with
  | Out.toSocket _ (Event.message _) => true
  | Out.toSocket _ (Event.messageSys _) => true
  | Out.toRoom _ (Event.message _) => true
  | Out.toRoom _ (Event.messageSys _) => true
  | Out.toAll (Event.message _) => true
  | Out.toAll (Event.messageSys _) => true
  | _ => false

/-- **C3 (counterexample).**  The claim says a previously joined client
(alice) receives a system join announcement when bob joins.  In fact
bob's `join` produces no `message`-kind output observable by alice at
all: the join handler emits only to the joining socket plus one global
`voiceUpdate`. -/
theorem C3_counterexample :
    ((joinH sJoinA "B" "bob" none).2.filter
      (fun o => observableBy "A" o && carriesMessage o)) = [] := by
  decide

/-- **C3 (amended).**  On every join, the joining connection receives the
default channel's history and a system-kind welcome message, but no join
announcement is sent to the default channel: every socket-directed output
of the handler goes to the joiner itself, nothing is emitted to any room,
and the only broadcast is the voice-presence refresh. -/
theorem C3_join_no_announcement (s : ServerState) (sid name : String)
    (avatar : Option String) :
    Out.toSocket sid (.loadHistory s.globalHistory) ∈ (joinH s sid name avatar).2 ∧
    (∃ n, Out.toSocket sid
        (.messageSys ⟨"System", "Welcome, " ++ n ++ "!", "system"⟩) ∈
        (joinH s sid name avatar).2) ∧
    (∀ q ev, Out.toSocket q ev ∈ (joinH s sid name avatar).2 → q = sid) ∧
    (∀ room ev, Out.toRoom room ev ∉ (joinH s sid name avatar).2) ∧
    (∀ ev, Out.toAll ev ∈ (joinH s sid name avatar).2 →
        ev = .voiceUpdate (getVoiceStateFull (joinH s sid name avatar).1)) := by
  rcases hp : alGet sid s.userProfiles with _ | p
  · refine ⟨?_, ⟨name, ?_⟩, ?_, ?_, ?_⟩
    · simp [joinH, hp]
    · simp [joinH, hp]
    · intro q ev hm
      simp [joinH, hp] at hm
      rcases hm with h | h | h | h <;> tauto
    · intro room ev hm
      simp [joinH, hp] at hm
    · intro ev hm
      simp [joinH, hp] at hm
      subst hm
      simp [joinH, hp]
  · refine ⟨?_, ⟨jsOrS p.name name, ?_⟩, ?_, ?_, ?_⟩
    · simp [joinH, hp]
    · simp [joinH, hp]
    · intro q ev hm
      simp [joinH, hp] at hm
      rcases hm with h | h | h | h <;> tauto
    · intro room ev hm
      simp [joinH, hp] at hm
    · intro ev hm
      simp [joinH, hp] at hm
      subst hm
      simp [joinH, hp]

/-- Witness for the amended C3: bob's join replays the history to bob
himself. -/
theorem C3_join_no_announcement_witness :
    Out.toSocket "B" (.loadHistory sJoinA.globalHistory) ∈
      (joinH sJoinA "B" "bob" none).2 :=
  (C3_join_no_announcement sJoinA "B" "bob" none).1

/-- **C7 (amended).**  The not-friends path does reveal whether the target
exists: with a live sender whose friend list lacks the target, the send
is a silent no-op (no output at all) when no session for the target id
exists, and produces the `privateMessageError` event to the sender when
the target session exists. -/
theorem C7_target_existence_observable (s : ServerState)
    (sid target text : String) (file : Option String) (now : Int)
    (ps : Profile) (hs : alGet sid s.users = some ps) (ht : target ≠ "")
    (hnf : target ∉ (alGet sid s.friends).getD []) :
    (alGet target s.users = none →
      privateMessageH s sid target text file now = (s, [])) ∧
    (∀ pt, alGet target s.users = some pt →
      privateMessageH s sid target text file now =
        (s, [Out.toSocket sid (.privateMessageError "You can only message friends")])) := by
  constructor
  · intro hnone
    simp [privateMessageH, hs, ht, hnone]
  · intro pt hsome
    exact privateMessageH_not_friends s sid target text file now ps pt hs hsome ht hnf

/-- Sender alice only; no session for target `"B"`. -/
def c7Absent : ServerState :=
  { initialState with users := [("A", ⟨"alice", none⟩)] }

/-- Same state with a session for the target `"B"` added. -/
def c7Present : ServerState :=
  { c7Absent with users := c7Absent.users ++ [("B", ⟨"bob", none⟩)] }

/-- **C7 (counterexample).**  Two runs differing only in the existence of
the target's session produce different sender-observable output: no event
versus a `privateMessageError` event.  The claim that the two runs look
identical to the sender is false. -/
theorem C7_counterexample :
    (privateMessageH c7Absent "A" "B" "hi" none 5).2.filter (observableBy "A") ≠
    (privateMessageH c7Present "A" "B" "hi" none 5).2.filter (observableBy "A") := by
  decide

/-- Witness for the amended C7 at the two concrete states. -/
theorem C7_target_existence_observable_witness :
    privateMessageH c7Absent "A" "B" "hi" none 5 = (c7Absent, []) ∧
    privateMessageH c7Present "A" "B" "hi" none 5 =
      (c7Present,
       [Out.toSocket "A" (.privateMessageError "You can only message friends")]) :=
  ⟨(C7_target_existence_observable c7Absent "A" "B" "hi" none 5 ⟨"alice", none⟩
      (by decide) (by decide) (by decide)).1 (by decide),
   (C7_target_existence_observable c7Present "A" "B" "hi" none 5 ⟨"alice", none⟩
      (by decide) (by decide) (by decide)).2 ⟨"bob", none⟩ (by decide)⟩

/-- Alice joins, bob joins, alice sends bob a friend request, alice
disconnects: the pending request survives but alice's session is gone. -/
def sReqThenDisc : ServerState := (disconnectH sReqAB "A").1

theorem sReqThenDisc_reachable : Reachable sReqThenDisc :=
  Reachable.step
    (Reachable.step
      (Reachable.step
        (Reachable.step Reachable.init
          (rfl : stepFn initialState (InEvent.join "A" "alice" none) 0 =
            Except.ok (joinH initialState "A" "alice" none)))
        (rfl : stepFn sJoinA (InEvent.join "B" "bob" none) 0 =
          Except.ok (joinH sJoinA "B" "bob" none)))
      (rfl : stepFn sJoinAB (InEvent.sendFriendRequest "A" "bob") 1 =
        Except.ok (sendFriendRequestH sJoinAB "A" "bob" 1)))
    (rfl : stepFn sReqAB (InEvent.disconnect "A") 2 =
      Except.ok (disconnectH sReqAB "A"))

/-- **C2.**  Refuting evaluation: in the reachable state where alice's
pending friend request survives her disconnect, bob's
`acceptFriendRequest` dereferences `users[fromSocketId].name` on a
missing session and throws — the handler does not run to completion. -/
theorem C2_accept_crash_on_disconnected_requester :
    Reachable sReqThenDisc ∧
    alGet "A" sReqThenDisc.users = none ∧
    "A" ∈ (alGet "B" sReqThenDisc.friendRequests).getD [] ∧
    stepFn sReqThenDisc (InEvent.acceptFriendRequest "B" "A") 3 =
      Except.error "TypeError: cannot read name of undefined" :=
  ⟨sReqThenDisc_reachable, by decide, by decide, rfl⟩


end Chatcord
